import Mathlib

/-!
Shallow embedding of `src/injectproxy/rules.go` from openshift/prom-label-proxy.

Modelling conventions:
* `labels.Labels` (Prometheus) is a list of name/value pairs; `Get` returns the
  value of the first pair with the given name and `""` when absent.  `Copy`
  is a deep copy; with Lean's value semantics it is the identity.
* Go `float64` fields (`duration`, `interval`, `evaluationTime`, ...) are only
  carried around, never computed with, so they are modelled as `Int`.
  `time.Time` values are likewise opaque and modelled as `Int`.
* Go errors built with `errors.New` / `fmt.Errorf` are modelled by the
  inductive `GoError`; `fmt.Errorf("...: %w", e)` is `GoError.wrap`,
  `fmt.Errorf("%w: %w", a, b)` is `GoError.wrap2`, and `errors.Is` is the
  predicate `GoError.carries`.
* `json.RawMessage` bytes are modelled by their decode observables: the result
  of unmarshalling them as a rules document and as an alerts document
  (`RawMessage`).  Likewise a response body (`Body`) is modelled by the result
  of constructing a gzip reader over it and the result of JSON-decoding the
  logical (decompressed, when applicable) content as an `ApiResponse`.
* The label matcher is an external collaborator (built by `newLabelMatcher`
  in routes.go, outside this file's source): the transforms treat it as an
  opaque predicate `String → Bool`, and its fallible construction is a field
  of `Routes`.
* The `*http.Request` argument threaded through the transforms is unused by
  both of them and is omitted; `MustLabelValues(resp.Request.Context())` is
  modelled by passing the label values directly to `modifyAPIResponse`.
-/

namespace PromLabelProxy

/-- Prometheus label set: name/value pairs. -/
abbrev Labels := List (String × String)

/-- Model of `labels.Labels.Get`: value of the label with the given name, `""` when absent. -/
def labelsGet (ls : Labels) (name : String) : String :=
  match ls.find? (fun p => p.1 == name) with
  | some p => p.2
  | none => ""

/-- Model of a Go error value as built by `errors.New` and `fmt.Errorf`. -/
inductive GoError where
  | base (msg : String)
  | wrap (msg : String) (cause : GoError)
  | wrap2 (a b : GoError)
deriving DecidableEq, Repr

/-- Model of `errors.Is e target`: `e` itself or some error in its unwrap chain equals `target`. -/
def GoError.carries (e target : GoError) : Bool :=
  match e with
  | .base m => GoError.base m == target
  | .wrap m c => GoError.wrap m c == target || c.carries target
  | .wrap2 a b => GoError.wrap2 a b == target || a.carries target || b.carries target

/-- Sentinel from rules.go line 172: `errors.New("failed to process the API response")`. -/
def errModifyResponseFailed : GoError := .base "failed to process the API response"

/-- Model of the `alert` struct (rules.go lines 161-168). -/
structure Alert where
  labels : Labels
  annotations : Labels
  state : String
  activeAt : Option Int
  keepFiringSince : Option Int
  value : String
deriving DecidableEq, Repr

/-- Model of the `alertingRule` struct (rules.go lines 128-143). -/
structure AlertingRule where
  state : String
  name : String
  query : String
  duration : Int
  keepFiringFor : Int
  labels : Labels
  annotations : Labels
  alerts : List Alert
  health : String
  lastError : String
  evaluationTime : Int
  lastEvaluation : Int
  type : String
deriving DecidableEq, Repr

/-- Model of the `recordingRule` struct (rules.go lines 145-155). -/
structure RecordingRule where
  name : String
  query : String
  labels : Labels
  health : String
  lastError : String
  evaluationTime : Int
  lastEvaluation : Int
  type : String
deriving DecidableEq, Repr

/-- Model of the `rule` tagged union (rules.go lines 80-83).  In Go it embeds
`*alertingRule` and `*recordingRule`; `UnmarshalJSON` guarantees exactly one is
non-nil, so it is a sum type. -/
inductive Rule where
  | alerting (r : AlertingRule)
  | recording (r : RecordingRule)
deriving DecidableEq, Repr

/-- Model of the union accessor `rule.Labels` (rules.go lines 85-90). -/
def Rule.Labels : Rule → PromLabelProxy.Labels
  | .alerting a => a.labels
  | .recording r => r.labels

/-- Model of the `ruleGroup` struct (rules.go lines 73-78). -/
structure RuleGroup where
  name : String
  file : String
  rules : List Rule
  interval : Int
deriving DecidableEq, Repr

/-- Model of the `rulesData` struct (rules.go lines 69-71). -/
structure RulesData where
  ruleGroups : List RuleGroup
deriving DecidableEq, Repr

/-- Model of the `alertsData` struct (rules.go lines 157-159). -/
structure AlertsData where
  alerts : List Alert
deriving DecidableEq, Repr

/-- Shared matching condition, written inline three times in the source
(rules.go lines 227, 238, 296): `lval := ls.Get(label); lval != "" && m.Matches(lval)`. -/
def labelMatch (label : String) (m : String → Bool) (ls : Labels) : Bool :=
  let lval := labelsGet ls label
  lval != "" && m lval

/-- Synthetic alerting rule created on the first matching alert (rules.go lines
242-256).  Note that `rgr` there is the `rule` union value, whose fields
`Duration`, `KeepFiringFor`, `Annotations` and `Alerts` are promoted from the
embedded `*alertingRule` (the `recordingRule` struct has none of those fields,
and the `ruleGroup` struct has no annotations field at all), so every copied
field comes from the parent alerting rule.  `.Copy()` on labels is a deep copy,
which is the identity under value semantics. -/
def initSynth (p : AlertingRule) : AlertingRule :=
  { state := ""
    name := p.name
    query := p.query
    duration := p.duration
    keepFiringFor := p.keepFiringFor
    labels := p.labels
    annotations := p.annotations
    alerts := []
    health := p.health
    lastError := p.lastError
    evaluationTime := p.evaluationTime
    lastEvaluation := p.lastEvaluation
    type := p.type }

/-- One iteration of the alert scan (rules.go lines 237-267): skip a
non-matching alert; otherwise lazily create the synthetic rule, append the
alert, and update the aggregate state (`switch ar.State`).  The source reads
the state of `rgr.alertingRule.Alerts[i]`, the same element of the parent's
alert list as the alert just appended, so it is `al.state` here. -/
def stepAlert (label : String) (m : String → Bool) (p : AlertingRule)
    (acc : Option AlertingRule) (al : Alert) : Option AlertingRule :=
  if !(labelMatch label m al.labels) then acc
  else
    let ar := acc.getD (initSynth p)
    let ar := { ar with alerts := ar.alerts ++ [al] }
    let ar :=
      if ar.state = "pending" then
        if al.state = "firing" then { ar with state := al.state } else ar
      else if ar.state = "" then { ar with state := al.state }
      else ar
    some ar

/-- Per-rule step of `filterRules` (rules.go lines 227-271): keep a rule whose
own label matches; otherwise drop it unless active-alert mode is on and it is
an alerting rule, in which case scan its alerts and return the synthetic rule
when at least one alert matched. -/
def filterRule (label : String) (rulesWithActiveAlerts : Bool) (m : String → Bool)
    (rgr : Rule) : Option Rule :=
  if labelMatch label m rgr.Labels then some rgr
  else if !rulesWithActiveAlerts then none
  else
    match rgr with
    | .recording _ => none
    | .alerting p =>
      match p.alerts.foldl (stepAlert label m p) none with
      | some ar => some (.alerting ar)
      | none => none

/-- Loop body shared by the append-accumulating loops of `filterRules`: append
the produced element, if any. -/
def optStep {α β : Type} (f : α → Option β) (acc : List β) (a : α) : List β :=
  match f a with
  | some b => acc ++ [b]
  | none => acc

/-- Inner loop over a group's rules (rules.go lines 225-272), accumulating the
kept/synthesized rules in order. -/
def filterGroupRules (label : String) (rulesWithActiveAlerts : Bool)
    (m : String → Bool) (rules : List Rule) : List Rule :=
  rules.foldl (optStep (filterRule label rulesWithActiveAlerts m)) []

/-- Per-group step (rules.go lines 274-277): when the filtered sequence is
non-empty, keep the group with its rules replaced; otherwise drop it. -/
def filterGroup (label : String) (rulesWithActiveAlerts : Bool)
    (m : String → Bool) (rg : RuleGroup) : Option RuleGroup :=
  let rules := filterGroupRules label rulesWithActiveAlerts m rg.rules
  if rules.length > 0 then some { rg with rules := rules } else none

/-- Core of `filterRules` (rules.go lines 223-280): loop over the groups,
appending each kept group in order. -/
def filterRulesData (label : String) (rulesWithActiveAlerts : Bool)
    (m : String → Bool) (d : RulesData) : RulesData :=
  ⟨d.ruleGroups.foldl (optStep (filterGroup label rulesWithActiveAlerts m)) []⟩

/-- Core of `filterAlerts` (rules.go lines 294-299): loop over the alerts,
appending each matching alert in order. -/
def filterAlertsData (label : String) (m : String → Bool) (d : AlertsData) : AlertsData :=
  ⟨d.alerts.foldl
    (fun acc al => if labelMatch label m al.labels then acc ++ [al] else acc)
    []⟩

deriving instance DecidableEq for Except

/-- Model of `json.RawMessage` bytes via their decode observables: the result
of `json.Unmarshal` into `rulesData` and into `alertsData`.  A decode failure
(for instance `rule.UnmarshalJSON` rejecting an unknown `type` discriminator,
rules.go line 122) is an `error`. -/
structure RawMessage where
  asRules : Except GoError RulesData
  asAlerts : Except GoError AlertsData
deriving DecidableEq, Repr

/-- Model of the `apiResponse` envelope (rules.go lines 29-35). -/
structure ApiResponse where
  status : String
  data : RawMessage
  errorType : String
  error : String
  warnings : List String
deriving DecidableEq, Repr

/-- Result type of the two transforms (`interface` with empty method set in Go): either a
`*rulesData` or an `*alertsData`. -/
inductive Value where
  | rules (d : RulesData)
  | alerts (d : AlertsData)
deriving DecidableEq, Repr

/-- Re-encoding of a transform result into raw bytes (`json.Marshal(v)`,
rules.go line 194), described by the decode observables of those bytes:
`json.Unmarshal` ignores unknown fields, so a rules document decodes as an
`alertsData` with no alerts and an alerts document as a `rulesData` with no
groups. -/
def encodeData : Value → RawMessage
  | .rules d => { asRules := .ok d, asAlerts := .ok ⟨[]⟩ }
  | .alerts d => { asRules := .ok ⟨[]⟩, asAlerts := .ok d }

/-- Model of a response body's byte-level observables: whether
`gzip.NewReader` over it succeeds (and with which error otherwise), and the
result of JSON-decoding its logical content as an `apiResponse`. -/
structure Body where
  gzipNewReaderError : Option GoError
  json : Except GoError ApiResponse
deriving DecidableEq, Repr

/-- Go `http.Header`: a map from header name to list of values, modelled as an
association list. -/
abbrev Headers := List (String × List String)

/-- Model of `http.Header.Get`: first value stored under the key, `""` when
absent or empty. -/
def headerGet (hs : Headers) (k : String) : String :=
  match hs with
  | [] => ""
  | (k2, vs) :: t =>
    if k2 == k then
      match vs with
      | v :: _ => v
      | [] => ""
    else headerGet t k

/-- Model of `http.Header.Del`. -/
def headerDel (hs : Headers) (k : String) : Headers :=
  hs.filter (fun p => p.1 != k)

/-- Model of `resp.Header[k] = [v]`: replace the entry for `k`. -/
def headerSet (hs : Headers) (k : String) (v : String) : Headers :=
  headerDel hs k ++ [(k, [v])]

/-- Model of the relevant parts of `*http.Response`. -/
structure Response where
  statusCode : Nat
  uncompressed : Bool
  headers : Headers
  body : Body
deriving DecidableEq, Repr

/-- Model of `%q` formatting for a plain string value. -/
def quoteStr (s : String) : String := "\"" ++ s ++ "\""

/-- Model of `getAPIResponse` (rules.go lines 37-67).  It returns the possibly
mutated response (the `Content-Encoding` header is deleted as soon as the gzip
reader is constructed, before any of the later checks) together with the
decoded envelope or the stage error.  Note the gzip handling precedes the
status-code check, exactly as in the source. -/
def getAPIResponse (resp : Response) : Response × Except GoError ApiResponse :=
  let gz : Except GoError Response :=
    if headerGet resp.headers "Content-Encoding" == "gzip" && !resp.uncompressed then
      match resp.body.gzipNewReaderError with
      | some e => .error (.wrap "gzip decoding error" e)
      | none => .ok { resp with headers := headerDel resp.headers "Content-Encoding" }
    else .ok resp
  match gz with
  | .error e => (resp, .error e)
  | .ok resp2 =>
    if resp2.statusCode ≠ 200 then
      (resp2, .error (.base ("unexpected status code: " ++ toString resp2.statusCode)))
    else
      match resp2.body.json with
      | .error e => (resp2, .error (.wrap "JSON decoding error" e))
      | .ok apir =>
        if apir.status ≠ "success" then
          (resp2, .error (.base ("unexpected response status: " ++ quoteStr apir.status)))
        else (resp2, .ok apir)

/-- Stand-in for `buf.Len()`, the byte length of the re-encoded envelope
(rules.go line 206): byte-level JSON serialization is outside this embedding,
so the recalculated `Content-Length` value is modelled as the length of a
canonical rendering of the encoded envelope, which is deterministic in it. -/
def encodedLen (apir : ApiResponse) : Nat := (reprStr apir).length

/-- Model of `modifyAPIResponse` (rules.go lines 177-210).  The label values
extracted by `MustLabelValues(resp.Request.Context())` are passed directly.
Returns the rewritten (or untouched) response and the reported error, if any.
Marshalling the plain data values of this model cannot fail, so the
`json.Marshal` / `json.Encoder` error branches (lines 195-197 and 202-204) are
not reachable and the success path is taken; the rewritten body is the
envelope with its data replaced (it is plain JSON, so a gzip reader over it
would fail), and `Content-Length` is set to the encoded length. -/
def modifyAPIResponse (f : List String → ApiResponse → Except GoError Value)
    (lvalues : List String) (resp : Response) : Response × Option GoError :=
  if resp.statusCode ≠ 200 then
    (resp, none)
  else
    match getAPIResponse resp with
    | (resp2, .error e) => (resp2, some (.wrap "can't decode the response" e))
    | (resp2, .ok apir) =>
      match f lvalues apir with
      | .error e => (resp2, some (.wrap2 errModifyResponseFailed e))
      | .ok v =>
        let apir2 := { apir with data := encodeData v }
        ({ resp2 with
            body := { gzipNewReaderError := some (.base "gzip: invalid header")
                      json := .ok apir2 }
            headers := headerSet resp2.headers "Content-Length" (toString (encodedLen apir2)) },
          none)

/-- Model of the fields of `routes` used by rules.go: the enforced label name,
the active-alert enforcement flag, and the matcher constructor
(`newLabelMatcher`, an external collaborator whose result is an opaque
predicate per its contract). -/
structure Routes where
  label : String
  rulesWithActiveAlerts : Bool
  newLabelMatcher : List String → Except GoError (String → Bool)

/-- Model of `(*routes).filterRules` (rules.go lines 212-281). -/
def Routes.filterRules (r : Routes) (lvalues : List String) (resp : ApiResponse) :
    Except GoError Value :=
  match resp.data.asRules with
  | .error e => .error (.wrap "can't decode rules data" e)
  | .ok rgs =>
    match r.newLabelMatcher lvalues with
    | .error e => .error e
    | .ok m => .ok (.rules (filterRulesData r.label r.rulesWithActiveAlerts m rgs))

/-- Model of `(*routes).filterAlerts` (rules.go lines 283-302). -/
def Routes.filterAlerts (r : Routes) (lvalues : List String) (resp : ApiResponse) :
    Except GoError Value :=
  match resp.data.asAlerts with
  | .error e => .error (.wrap "can't decode alerts data" e)
  | .ok d =>
    match r.newLabelMatcher lvalues with
    | .error e => .error e
    | .ok m => .ok (.alerts (filterAlertsData r.label m d))

/-! Helper lemmas about the loop shapes used by the transforms. -/

/-- Append-accumulating loop over an `Option`-valued step is `filterMap`. -/
theorem foldl_opt_append {α β : Type} (f : α → Option β) (l : List α) (acc : List β) :
    l.foldl (optStep f) acc = acc ++ l.filterMap f := by
  induction l generalizing acc with
  | nil => simp
  | cons a t ih =>
    simp only [List.foldl_cons, List.filterMap_cons]
    cases h : f a with
    | none => simp [optStep, h, ih]
    | some b => simp [optStep, h, ih]

/-- Append-accumulating loop over a boolean test is `filter`. -/
theorem foldl_if_append {α : Type} (p : α → Bool) (l : List α) (acc : List α) :
    l.foldl (fun acc a => if p a then acc ++ [a] else acc) acc = acc ++ l.filter p := by
  induction l generalizing acc with
  | nil => simp
  | cons a t ih =>
    simp only [List.foldl_cons, List.filter_cons]
    cases h : p a with
    | false => simp [h, ih]
    | true => simp [h, ih]

/-- The rule loop of a group is a `filterMap` over `filterRule`. -/
theorem filterGroupRules_eq (label : String) (rwa : Bool) (m : String → Bool)
    (rules : List Rule) :
    filterGroupRules label rwa m rules = rules.filterMap (filterRule label rwa m) := by
  have h := foldl_opt_append (filterRule label rwa m) rules []
  simp only [List.nil_append] at h
  exact h

/-- The group loop of `filterRules` is a `filterMap` over `filterGroup`. -/
theorem filterRulesData_eq (label : String) (rwa : Bool) (m : String → Bool)
    (d : RulesData) :
    (filterRulesData label rwa m d).ruleGroups =
      d.ruleGroups.filterMap (filterGroup label rwa m) := by
  have h := foldl_opt_append (filterGroup label rwa m) d.ruleGroups []
  simp only [List.nil_append] at h
  exact h

/-- The alert loop of `filterAlerts` is a `filter`. -/
theorem filterAlertsData_eq (label : String) (m : String → Bool) (d : AlertsData) :
    (filterAlertsData label m d).alerts =
      d.alerts.filter (fun al => labelMatch label m al.labels) := by
  have h := foldl_if_append (fun al => labelMatch label m al.labels) d.alerts []
  simp only [List.nil_append] at h
  exact h

/-- Invariant of the synthetic alerting rule being built by the alert scan:
all carried-over fields come from the parent rule, the alert list is non-empty
and every collected alert matches. -/
def synthInv (label : String) (m : String → Bool) (p ar : AlertingRule) : Prop :=
  ar.name = p.name ∧ ar.query = p.query ∧ ar.duration = p.duration ∧
  ar.keepFiringFor = p.keepFiringFor ∧ ar.labels = p.labels ∧
  ar.annotations = p.annotations ∧ ar.health = p.health ∧
  ar.lastError = p.lastError ∧ ar.evaluationTime = p.evaluationTime ∧
  ar.lastEvaluation = p.lastEvaluation ∧ ar.type = p.type ∧
  ar.alerts ≠ [] ∧ ∀ al ∈ ar.alerts, labelMatch label m al.labels = true

/-- One scan step preserves the invariant (or leaves the accumulator alone). -/
theorem stepAlert_inv (label : String) (m : String → Bool) (p : AlertingRule)
    (acc : Option AlertingRule) (al : Alert)
    (hacc : acc = none ∨ ∃ a0, acc = some a0 ∧ synthInv label m p a0) :
    stepAlert label m p acc al = none ∨
      ∃ ar, stepAlert label m p acc al = some ar ∧ synthInv label m p ar := by
  by_cases h : labelMatch label m al.labels
  · right
    rcases hacc with hacc | ⟨a0, hacc, hinv⟩
    · subst hacc
      simp only [stepAlert, h, Bool.not_true, Bool.false_eq_true, if_false,
        Option.getD_none]
      refine ⟨_, rfl, ?_⟩
      split <;> split <;> simp_all [synthInv, initSynth]
    · subst hacc
      obtain ⟨h1, h2, h3, h4, h5, h6, h7, h8, h9, h10, h11, h12, h13⟩ := hinv
      simp only [stepAlert, h, Bool.not_true, Bool.false_eq_true, if_false,
        Option.getD_some]
      refine ⟨_, rfl, ?_⟩
      have hmem : ∀ x ∈ a0.alerts ++ [al], labelMatch label m x.labels = true := by
        intro x hx
        rcases List.mem_append.mp hx with hx | hx
        · exact h13 x hx
        · simp only [List.mem_singleton] at hx
          subst hx
          exact h
      split <;> split <;> simp_all [synthInv, List.mem_append]
  · rcases hacc with hacc | ⟨a0, hacc, hinv⟩
    · left
      simp_all [stepAlert]
    · right
      refine ⟨a0, ?_, hinv⟩
      simp_all [stepAlert]

/-- The whole alert scan preserves the invariant. -/
theorem foldl_stepAlert_inv (label : String) (m : String → Bool) (p : AlertingRule)
    (alerts : List Alert) (acc : Option AlertingRule)
    (hacc : acc = none ∨ ∃ a0, acc = some a0 ∧ synthInv label m p a0) :
    alerts.foldl (stepAlert label m p) acc = none ∨
      ∃ ar, alerts.foldl (stepAlert label m p) acc = some ar ∧ synthInv label m p ar := by
  induction alerts generalizing acc with
  | nil => simpa using hacc
  | cons al t ih =>
    simp only [List.foldl_cons]
    exact ih _ (stepAlert_inv label m p acc al hacc)

/-- A synthetic rule produced by the alert scan satisfies the invariant. -/
theorem synth_some_inv (label : String) (m : String → Bool) (p ar : AlertingRule)
    (h : p.alerts.foldl (stepAlert label m p) none = some ar) :
    synthInv label m p ar := by
  rcases foldl_stepAlert_inv label m p p.alerts none (Or.inl rfl) with h2 | ⟨ar2, h2, hinv⟩
  · rw [h] at h2
    cases h2
  · rw [h] at h2
    injection h2 with h3
    subst h3
    exact hinv

/-- Characterization of the per-rule step: a rule survives either as itself
(whole-rule match) or as a synthetic alerting rule built by the alert scan in
active-alert mode. -/
theorem filterRule_some (label : String) (rwa : Bool) (m : String → Bool)
    (r r2 : Rule) (h : filterRule label rwa m r = some r2) :
    (r2 = r ∧ labelMatch label m r.Labels = true) ∨
      (labelMatch label m r.Labels = false ∧ rwa = true ∧
        ∃ p ar, r = .alerting p ∧ r2 = .alerting ar ∧
          p.alerts.foldl (stepAlert label m p) none = some ar) := by
  rcases Bool.eq_false_or_eq_true (labelMatch label m r.Labels) with hm | hm
  · left
    simp [filterRule, hm] at h
    exact ⟨h.symm, hm⟩
  · right
    refine ⟨hm, ?_⟩
    cases rwa with
    | false => simp [filterRule, hm] at h
    | true =>
      refine ⟨rfl, ?_⟩
      cases r with
      | recording rr => simp [filterRule, hm] at h
      | alerting p =>
        cases hfold : p.alerts.foldl (stepAlert label m p) none with
        | none => simp [filterRule, hm, hfold] at h
        | some ar =>
          simp [filterRule, hm, hfold] at h
          exact ⟨p, ar, rfl, h.symm, hfold⟩

/-- Characterization of the per-group step: a surviving group keeps its
metadata and carries the non-empty filtered rule sequence. -/
theorem filterGroup_some (label : String) (rwa : Bool) (m : String → Bool)
    (rg rg2 : RuleGroup) (h : filterGroup label rwa m rg = some rg2) :
    rg2.name = rg.name ∧ rg2.file = rg.file ∧ rg2.interval = rg.interval ∧
      rg2.rules = filterGroupRules label rwa m rg.rules ∧ rg2.rules ≠ [] := by
  by_cases hl : (filterGroupRules label rwa m rg.rules).length > 0
  · simp [filterGroup, hl] at h
    subst h
    exact ⟨rfl, rfl, rfl, rfl, List.length_pos.mp hl⟩
  · simp [filterGroup, hl] at h

/-- Membership in the filtered group list comes from a surviving input group. -/
theorem mem_filterRulesData (label : String) (rwa : Bool) (m : String → Bool)
    (d : RulesData) (rg2 : RuleGroup)
    (h : rg2 ∈ (filterRulesData label rwa m d).ruleGroups) :
    ∃ rg ∈ d.ruleGroups, filterGroup label rwa m rg = some rg2 := by
  rw [filterRulesData_eq] at h
  obtain ⟨rg, hm1, hm2⟩ := List.mem_filterMap.mp h
  exact ⟨rg, hm1, hm2⟩

/-- Deleting a header makes lookups of that key return the empty string. -/
theorem headerGet_headerDel (l : Headers) (k : String) :
    headerGet (headerDel l k) k = "" := by
  induction l with
  | nil => rfl
  | cons p t ih =>
    cases h : (p.1 == k) with
    | true =>
      have hb : (p.1 != k) = false := by simp [bne, h]
      simpa [headerDel, List.filter_cons, hb] using ih
    | false =>
      have hb : (p.1 != k) = true := by simp [bne, h]
      simpa [headerDel, List.filter_cons, hb, headerGet, h] using ih

/-- Keys are preserved through a key-preserving `filterMap`, as a sublist. -/
theorem map_key_filterMap_sublist {α β : Type} (g : α → Option α) (k : α → β)
    (hk : ∀ a a2, g a = some a2 → k a2 = k a) (l : List α) :
    ((l.filterMap g).map k).Sublist (l.map k) := by
  induction l with
  | nil => simp
  | cons a t ih =>
    simp only [List.filterMap_cons, List.map_cons]
    cases h : g a with
    | none => exact ih.cons _
    | some a2 =>
      simp only [List.map_cons]
      rw [hk a a2 h]
      exact ih.cons₂ _

/-! Concrete fixtures used by the claim theorems below. -/

/-- Matcher accepting exactly the value `"a"` (an allowed-values set `(a)`). -/
def mA : String → Bool := fun v => v == "a"

/-- Label set carrying `namespace="a"` (accepted by `mA`). -/
def nsA : Labels := [("namespace", "a")]

/-- Label set carrying `namespace="b"` (rejected by `mA`). -/
def nsB : Labels := [("namespace", "b")]

/-- Alert at index 0 of the C2 scenario: label `a`, state `pending`. -/
def alertA0 : Alert :=
  { labels := nsA, annotations := [("note", "alert0")], state := "pending",
    activeAt := some 10, keepFiringSince := none, value := "1" }

/-- Alert at index 1 of the C2 scenario: label `b`, state `firing`. -/
def alertB1 : Alert :=
  { labels := nsB, annotations := [("note", "alert1")], state := "firing",
    activeAt := some 11, keepFiringSince := none, value := "2" }

/-- Alert at index 2 of the C2 scenario: label `a`, state `firing`. -/
def alertA2 : Alert :=
  { labels := nsA, annotations := [("note", "alert2")], state := "firing",
    activeAt := some 12, keepFiringSince := some 3, value := "3" }

/-- Parent alerting rule of the C2 scenario: its own label does not match. -/
def c2Parent : AlertingRule :=
  { state := "inactive", name := "HighLatency", query := "latency > 1",
    duration := 300, keepFiringFor := 60,
    labels := [("namespace", "other"), ("severity", "critical")],
    annotations := [("summary", "from the parent rule")],
    alerts := [alertA0, alertB1, alertA2],
    health := "ok", lastError := "previous failure", evaluationTime := 2,
    lastEvaluation := 99, type := "alerting" }

/-- Rule group holding the C2 parent rule. -/
def c2Group : RuleGroup :=
  { name := "g1", file := "f1", rules := [.alerting c2Parent], interval := 30 }

/-- Synthetic rule expected from the C2 scenario: the parent's fields, the
matching alerts at original indices 0 and 2, aggregate state `firing`. -/
def c2Synth : AlertingRule :=
  { c2Parent with state := "firing", alerts := [alertA0, alertA2] }

/-- C2: on an AlertingRule whose own label does not match, with child alerts
(label=a,state=pending), (label=b,state=firing), (label=a,state=firing),
allowed values (a) and active-alert mode
on, `filterRules` outputs exactly one synthetic AlertingRule containing
exactly the alerts at original indices 0 and 2 with aggregate state `firing`
(the `pending` state adopted at index 0 is upgraded by the alert at index 2). -/
theorem C2_synthesis :
    filterRulesData "namespace" true mA ⟨[c2Group]⟩ =
      ⟨[{ c2Group with rules := [.alerting c2Synth] }]⟩ := by
  decide

/-- C4: a rule whose own label value (via the union accessor) is non-empty and
accepted by the matcher is kept unchanged — original full alert list included —
and the partial alert-match step is not applied to it, whatever the
enforcement-mode flag. -/
theorem C4_whole_rule (label : String) (rwa : Bool) (m : String → Bool) (r : Rule)
    (h : labelMatch label m r.Labels = true) :
    filterRule label rwa m r = some r := by
  simp [filterRule, h]

/-- Rule whose own label matches `mA` while its only alert does not. -/
def c4Rule : Rule :=
  .alerting { c2Parent with labels := nsA, alerts := [alertB1] }

/-- Witness for C4 at a concrete rule containing a non-matching child alert. -/
theorem C4_whole_rule_witness :
    labelMatch "namespace" mA c4Rule.Labels = true ∧
      filterRule "namespace" true mA c4Rule = some c4Rule :=
  ⟨by decide, C4_whole_rule "namespace" true mA c4Rule (by decide)⟩

/-- C7: a RecordingRule whose label value is empty or not accepted is dropped
regardless of the enforcement-mode flag; the alert-level fallback exists only
for AlertingRules. -/
theorem C7_recording_drop (label : String) (rwa : Bool) (m : String → Bool)
    (rr : RecordingRule) (h : labelMatch label m (Rule.recording rr).Labels = false) :
    filterRule label rwa m (.recording rr) = none := by
  cases rwa <;> simp [filterRule, h]

/-- Recording rule carrying the rejected label value `b`. -/
def c7Recording : RecordingRule :=
  { name := "sum:requests", query := "sum(requests)", labels := nsB,
    health := "ok", lastError := "", evaluationTime := 1, lastEvaluation := 5,
    type := "recording" }

/-- Witness for C7 with the enforcement-mode flag set. -/
theorem C7_recording_drop_witness :
    labelMatch "namespace" mA (Rule.recording c7Recording).Labels = false ∧
      filterRule "namespace" true mA (.recording c7Recording) = none :=
  ⟨by decide, C7_recording_drop "namespace" true mA c7Recording (by decide)⟩

/-- C9: `filterAlerts` is a pure in-order filter: the output contains, in
original relative order, exactly the alerts whose label value on the enforced
label is non-empty and accepted by the matcher, each kept unmodified. -/
theorem C9_pure_filter (label : String) (m : String → Bool) (d : AlertsData) :
    filterAlertsData label m d =
      ⟨d.alerts.filter (fun al => labelMatch label m al.labels)⟩ := by
  have h := filterAlertsData_eq label m d
  cases hout : filterAlertsData label m d with
  | mk alerts =>
    rw [hout] at h
    simpa using h

/-- C6: no group in the output of `filterRules` has an empty rule list;
retained groups keep their metadata and original relative order, with their
rules replaced by the filtered sequence. -/
theorem C6_group_emptiness (label : String) (rwa : Bool) (m : String → Bool)
    (d : RulesData) :
    (∀ rg2 ∈ (filterRulesData label rwa m d).ruleGroups, rg2.rules ≠ []) ∧
      (((filterRulesData label rwa m d).ruleGroups.map
          (fun rg => (rg.name, rg.file, rg.interval))).Sublist
        (d.ruleGroups.map (fun rg => (rg.name, rg.file, rg.interval)))) ∧
      (∀ rg2 ∈ (filterRulesData label rwa m d).ruleGroups, ∃ rg ∈ d.ruleGroups,
        rg2.name = rg.name ∧ rg2.file = rg.file ∧ rg2.interval = rg.interval ∧
        rg2.rules = filterGroupRules label rwa m rg.rules) := by
  refine ⟨?_, ?_, ?_⟩
  · intro rg2 h
    obtain ⟨rg, _, hsome⟩ := mem_filterRulesData label rwa m d rg2 h
    exact (filterGroup_some label rwa m rg rg2 hsome).2.2.2.2
  · rw [filterRulesData_eq]
    refine map_key_filterMap_sublist _ _ ?_ d.ruleGroups
    intro rg rg2 hsome
    obtain ⟨h1, h2, h3, _, _⟩ := filterGroup_some label rwa m rg rg2 hsome
    simp [h1, h2, h3]
  · intro rg2 h
    obtain ⟨rg, hmem, hsome⟩ := mem_filterRulesData label rwa m d rg2 h
    obtain ⟨h1, h2, h3, h4, _⟩ := filterGroup_some label rwa m rg rg2 hsome
    exact ⟨rg, hmem, h1, h2, h3, h4⟩

/-- Witness for C6: the group surviving the C2 scenario has a non-empty rule
list, and it descends from the input group with its rules replaced. -/
theorem C6_group_emptiness_witness :
    ({ c2Group with rules := [.alerting c2Synth] } : RuleGroup).rules ≠ [] ∧
      ∃ rg ∈ (⟨[c2Group]⟩ : RulesData).ruleGroups,
        ({ c2Group with rules := [.alerting c2Synth] } : RuleGroup).name = rg.name ∧
        ({ c2Group with rules := [.alerting c2Synth] } : RuleGroup).file = rg.file ∧
        ({ c2Group with rules := [.alerting c2Synth] } : RuleGroup).interval = rg.interval ∧
        ({ c2Group with rules := [.alerting c2Synth] } : RuleGroup).rules =
          filterGroupRules "namespace" true mA rg.rules :=
  ⟨(C6_group_emptiness "namespace" true mA ⟨[c2Group]⟩).1 _ (by decide),
   (C6_group_emptiness "namespace" true mA ⟨[c2Group]⟩).2.2 _ (by decide)⟩

/-- Reading of claim C1 as stated, as a decidable check on an output document:
every rule carries an accepted non-empty value on the enforced label, and so
does every alert of every alerting rule. -/
def ruleIsolated (label : String) (m : String → Bool) : Rule → Bool
  | .alerting a =>
    labelMatch label m a.labels && a.alerts.all (fun al => labelMatch label m al.labels)
  | .recording rr => labelMatch label m rr.labels

/-- The C1 check over a whole rules document. -/
def rulesOutputIsolated (label : String) (m : String → Bool) (d : RulesData) : Bool :=
  d.ruleGroups.all (fun rg => rg.rules.all (ruleIsolated label m))

/-- Alerting rule whose own label matches `mA` but whose only alert has label `b`. -/
def c1KeepRule : Rule :=
  Rule.alerting
    { state := "firing", name := "LeakyKeep", query := "q1", duration := 5,
      keepFiringFor := 0, labels := nsA, annotations := [], alerts := [alertB1],
      health := "ok", lastError := "", evaluationTime := 1, lastEvaluation := 7,
      type := "alerting" }

/-- Group holding `c1KeepRule`. -/
def c1Group : RuleGroup := { name := "g", file := "f", rules := [c1KeepRule], interval := 15 }

/-- Alerting rule whose own label is `b` (rejected) but whose only alert has label `a`. -/
def c1SynthParent : AlertingRule :=
  { state := "pending", name := "LeakySynth", query := "q2", duration := 5,
    keepFiringFor := 0, labels := nsB, annotations := [], alerts := [alertA0],
    health := "ok", lastError := "", evaluationTime := 1, lastEvaluation := 8,
    type := "alerting" }

/-- Group holding `c1SynthParent`. -/
def c1GroupB : RuleGroup :=
  { name := "g2", file := "f", rules := [.alerting c1SynthParent], interval := 15 }

/-- C1 counterexample: the claim as stated fails twice.  A whole-rule match
keeps the rule with its full alert list, so the output retains an alert whose
label value `b` is not accepted; and in active-alert mode a synthetic rule is
emitted whose own labels do not carry an accepted value. -/
theorem C1_counterexample :
    rulesOutputIsolated "namespace" mA
        (filterRulesData "namespace" false mA ⟨[c1Group]⟩) = false ∧
      rulesOutputIsolated "namespace" mA
        (filterRulesData "namespace" true mA ⟨[c1GroupB]⟩) = false := by
  decide

/-- C1 (amended): every rule in the output of `filterRules` either carries an
accepted non-empty value on the enforced label itself, or is an alerting rule
with a non-empty alert list all of whose alerts carry such a value; and every
alert in the output of `filterAlerts` carries such a value. -/
theorem C1_tenant_isolation (label : String) (rwa : Bool) (m : String → Bool)
    (d : RulesData) (ad : AlertsData) :
    (∀ rg2 ∈ (filterRulesData label rwa m d).ruleGroups, ∀ r ∈ rg2.rules,
      labelMatch label m r.Labels = true ∨
        ∃ ar, r = Rule.alerting ar ∧ ar.alerts ≠ [] ∧
          ∀ al ∈ ar.alerts, labelMatch label m al.labels = true) ∧
      (∀ al ∈ (filterAlertsData label m ad).alerts, labelMatch label m al.labels = true) := by
  constructor
  · intro rg2 hrg r hr
    obtain ⟨rg, _, hsome⟩ := mem_filterRulesData label rwa m d rg2 hrg
    obtain ⟨_, _, _, hrules, _⟩ := filterGroup_some label rwa m rg rg2 hsome
    rw [hrules, filterGroupRules_eq] at hr
    obtain ⟨r0, _, hr0⟩ := List.mem_filterMap.mp hr
    rcases filterRule_some label rwa m r0 r hr0 with ⟨rfl, hm⟩ | ⟨_, _, p, ar, _, rfl, hfold⟩
    · exact Or.inl hm
    · obtain ⟨_, _, _, _, _, _, _, _, _, _, _, hne, hall⟩ :=
        synth_some_inv label m p ar hfold
      exact Or.inr ⟨ar, rfl, hne, hall⟩
  · intro al hal
    rw [filterAlertsData_eq] at hal
    exact (List.mem_filter.mp hal).2

/-- Witness for C1 (amended): instantiated at the whole-rule-match fixture and
at a concrete alert list. -/
theorem C1_tenant_isolation_witness :
    (labelMatch "namespace" mA c1KeepRule.Labels = true ∨
      ∃ ar, c1KeepRule = Rule.alerting ar ∧ ar.alerts ≠ [] ∧
        ∀ al ∈ ar.alerts, labelMatch "namespace" mA al.labels = true) ∧
      labelMatch "namespace" mA alertA0.labels = true :=
  ⟨(C1_tenant_isolation "namespace" false mA ⟨[c1Group]⟩ ⟨[alertA0, alertB1]⟩).1
      c1Group (by decide) c1KeepRule (by decide),
   (C1_tenant_isolation "namespace" false mA ⟨[c1Group]⟩ ⟨[alertA0, alertB1]⟩).2
      alertA0 (by decide)⟩

/-- Alert of the C8 scenario, with its own distinctive annotations. -/
def c8Alert : Alert :=
  { labels := nsA, annotations := [("note", "from the matching alert")],
    state := "firing", activeAt := some 20, keepFiringSince := none, value := "9" }

/-- Parent alerting rule of the C8 scenario: rejected own label, distinctive
annotations. -/
def c8Parent : AlertingRule :=
  { state := "inactive", name := "DiskFull", query := "disk > 90",
    duration := 120, keepFiringFor := 30,
    labels := [("namespace", "other")],
    annotations := [("note", "from the parent rule")],
    alerts := [c8Alert],
    health := "ok", lastError := "", evaluationTime := 3, lastEvaluation := 44,
    type := "alerting" }

/-- Group holding the C8 parent rule.  The `ruleGroup` struct of the source
(rules.go lines 73-78) has `name`, `file`, `rules` and `interval` fields only —
no annotations field. -/
def c8Group : RuleGroup :=
  { name := "g8", file := "f8", rules := [.alerting c8Parent], interval := 60 }

/-- Synthetic rule produced by the C8 scenario. -/
def c8Synth : AlertingRule := { c8Parent with state := "firing", alerts := [c8Alert] }

/-- C8 counterexample: the synthetic rule's annotations equal the parent
alerting rule's annotations (`rgr.Annotations` is the field promoted from the
embedded `*alertingRule`), not the matching alert's; a rule group has no
annotations field to copy from, so the claim's provenance — group, not parent
rule — is wrong. -/
theorem C8_counterexample :
    filterRulesData "namespace" true mA ⟨[c8Group]⟩ =
        ⟨[{ c8Group with rules := [.alerting c8Synth] }]⟩ ∧
      c8Synth.annotations = c8Parent.annotations ∧
      c8Synth.annotations = [("note", "from the parent rule")] ∧
      c8Alert.annotations = [("note", "from the matching alert")] := by
  decide

/-- C8 (amended): a synthesized partial AlertingRule copies the parent
alerting rule's name, query, duration, keepFiringFor, labels, annotations,
health, lastError, evaluationTime, lastEvaluation and type (annotations
included — the parent rule, not the rule group, which has no annotations
field), and the synthesis starts from an empty alert list and empty state. -/
theorem C8_provenance (label : String) (m : String → Bool) (p ar : AlertingRule)
    (h : p.alerts.foldl (stepAlert label m p) none = some ar) :
    ar.name = p.name ∧ ar.query = p.query ∧ ar.duration = p.duration ∧
      ar.keepFiringFor = p.keepFiringFor ∧ ar.labels = p.labels ∧
      ar.annotations = p.annotations ∧ ar.health = p.health ∧
      ar.lastError = p.lastError ∧ ar.evaluationTime = p.evaluationTime ∧
      ar.lastEvaluation = p.lastEvaluation ∧ ar.type = p.type ∧
      (initSynth p).alerts = [] ∧ (initSynth p).state = "" := by
  obtain ⟨h1, h2, h3, h4, h5, h6, h7, h8, h9, h10, h11, _, _⟩ :=
    synth_some_inv label m p ar h
  exact ⟨h1, h2, h3, h4, h5, h6, h7, h8, h9, h10, h11, rfl, rfl⟩

/-- Witness for C8 (amended) at the C8 fixture. -/
theorem C8_provenance_witness :
    c8Synth.name = c8Parent.name ∧ c8Synth.query = c8Parent.query ∧
      c8Synth.duration = c8Parent.duration ∧
      c8Synth.keepFiringFor = c8Parent.keepFiringFor ∧
      c8Synth.labels = c8Parent.labels ∧
      c8Synth.annotations = c8Parent.annotations ∧
      c8Synth.health = c8Parent.health ∧
      c8Synth.lastError = c8Parent.lastError ∧
      c8Synth.evaluationTime = c8Parent.evaluationTime ∧
      c8Synth.lastEvaluation = c8Parent.lastEvaluation ∧
      c8Synth.type = c8Parent.type ∧
      (initSynth c8Parent).alerts = [] ∧ (initSynth c8Parent).state = "" :=
  C8_provenance "namespace" mA c8Parent c8Synth (by decide)

/-- Wrapping with a message (`fmt.Errorf("...: %w", e)`) adds no sentinel: the
result carries a base error exactly when the cause does. -/
theorem carries_wrap (msg : String) (c : GoError) (s : String) :
    (GoError.wrap msg c).carries (.base s) = c.carries (.base s) := by
  simp [GoError.carries]

/-- Every error carries itself. -/
theorem carries_self (e : GoError) : e.carries e = true := by
  cases e <;> simp [GoError.carries]

/-- A double wrap (`fmt.Errorf("%w: %w", a, b)`) carries its first component. -/
theorem carries_wrap2_left (a b : GoError) : (GoError.wrap2 a b).carries a = true := by
  simp [GoError.carries, carries_self]

/-- C3 (amended): only a failure of the transform function is wrapped with the
sentinel `errModifyResponseFailed` (plus the cause); a failure of
`getAPIResponse` — gzip error, malformed JSON, or an envelope status other
than `success` — is reported as `can't decode the response` wrapping the
cause, which carries the sentinel only if the cause itself does. -/
theorem C3_sentinel_scope (f : List String → ApiResponse → Except GoError Value)
    (lv : List String) (resp : Response) (h200 : resp.statusCode = 200) :
    (∀ e, (getAPIResponse resp).2 = .error e →
      (modifyAPIResponse f lv resp).2 = some (.wrap "can't decode the response" e) ∧
        (GoError.wrap "can't decode the response" e).carries errModifyResponseFailed =
          e.carries errModifyResponseFailed) ∧
      (∀ apir e, (getAPIResponse resp).2 = .ok apir → f lv apir = .error e →
        (modifyAPIResponse f lv resp).2 = some (.wrap2 errModifyResponseFailed e) ∧
          (GoError.wrap2 errModifyResponseFailed e).carries errModifyResponseFailed = true) := by
  constructor
  · intro e he
    rcases hga : getAPIResponse resp with ⟨resp2, r⟩
    rw [hga] at he
    simp only at he
    subst he
    refine ⟨?_, carries_wrap _ _ _⟩
    simp [modifyAPIResponse, h200, hga]
  · intro apir e hok hf
    rcases hga : getAPIResponse resp with ⟨resp2, r⟩
    rw [hga] at hok
    simp only at hok
    subst hok
    refine ⟨?_, carries_wrap2_left _ _⟩
    simp [modifyAPIResponse, h200, hga, hf]

/-- Empty raw payload that decodes as both document shapes. -/
def emptyRaw : RawMessage := { asRules := .ok ⟨[]⟩, asAlerts := .ok ⟨[]⟩ }

/-- Concrete routes configuration for the pipeline fixtures. -/
def c3Routes : Routes :=
  { label := "namespace", rulesWithActiveAlerts := false,
    newLabelMatcher := fun _ => .ok mA }

/-- Envelope with upstream status `error`. -/
def c3ErrEnvelope : ApiResponse :=
  { status := "error", data := emptyRaw, errorType := "internal",
    error := "query engine exploded", warnings := [] }

/-- 200 response whose decoded envelope has status `error`. -/
def c3RespErrStatus : Response :=
  { statusCode := 200, uncompressed := false, headers := [],
    body := { gzipNewReaderError := some (.base "gzip: invalid header"),
              json := .ok c3ErrEnvelope } }

/-- Error produced by `rule.UnmarshalJSON` on an unknown discriminator. -/
def c3UnknownRuleErr : GoError := .base "failed to unmarshal rule: unknown type \"unknown\""

/-- Successful envelope whose rules payload fails to decode. -/
def c3OkEnvelopeUnknownRule : ApiResponse :=
  { status := "success",
    data := { asRules := .error c3UnknownRuleErr, asAlerts := .ok ⟨[]⟩ },
    errorType := "", error := "", warnings := [] }

/-- 200 response whose rules payload contains a rule of unknown type. -/
def c3RespUnknownRule : Response :=
  { statusCode := 200, uncompressed := false, headers := [],
    body := { gzipNewReaderError := some (.base "gzip: invalid header"),
              json := .ok c3OkEnvelopeUnknownRule } }

/-- C3 counterexample: an envelope with status `error` makes the rewrite fail,
but the reported error does not carry the sentinel `errModifyResponseFailed` —
it is wrapped as `can't decode the response` instead. -/
theorem C3_counterexample :
    (modifyAPIResponse (c3Routes.filterRules) ["a"] c3RespErrStatus).2 =
        some (.wrap "can't decode the response"
          (.base "unexpected response status: \"error\"")) ∧
      (GoError.wrap "can't decode the response"
          (.base "unexpected response status: \"error\"")).carries
        errModifyResponseFailed = false := by
  constructor
  · decide
  · decide

/-- Witness for C3 (amended): the status-`error` failure lacks the sentinel,
while the unknown-rule-type failure (a transform failure) carries it. -/
theorem C3_sentinel_scope_witness :
    ((modifyAPIResponse (c3Routes.filterRules) ["a"] c3RespErrStatus).2 =
        some (.wrap "can't decode the response"
          (.base "unexpected response status: \"error\"")) ∧
      (GoError.wrap "can't decode the response"
          (.base "unexpected response status: \"error\"")).carries errModifyResponseFailed =
        (GoError.base "unexpected response status: \"error\"").carries errModifyResponseFailed) ∧
      ((modifyAPIResponse (c3Routes.filterRules) ["a"] c3RespUnknownRule).2 =
        some (.wrap2 errModifyResponseFailed
          (.wrap "can't decode rules data" c3UnknownRuleErr)) ∧
      (GoError.wrap2 errModifyResponseFailed
          (.wrap "can't decode rules data" c3UnknownRuleErr)).carries
        errModifyResponseFailed = true) :=
  ⟨(C3_sentinel_scope (c3Routes.filterRules) ["a"] c3RespErrStatus rfl).1
      (.base "unexpected response status: \"error\"") (by decide),
   (C3_sentinel_scope (c3Routes.filterRules) ["a"] c3RespUnknownRule rfl).2
      c3OkEnvelopeUnknownRule (.wrap "can't decode rules data" c3UnknownRuleErr)
      (by decide) (by decide)⟩

/-- C5: a backend response with a status code other than 200 is passed through
with no error and no modification at all — the returned response is the input. -/
theorem C5_passthrough (f : List String → ApiResponse → Except GoError Value)
    (lv : List String) (resp : Response) (h : resp.statusCode ≠ 200) :
    modifyAPIResponse f lv resp = (resp, none) := by
  simp [modifyAPIResponse, h]

/-- 502 backend response fixture. -/
def c5Resp : Response :=
  { statusCode := 502, uncompressed := false,
    headers := [("Content-Type", ["application/json"])],
    body := { gzipNewReaderError := some (.base "gzip: invalid header"),
              json := .error (.base "invalid character") } }

/-- Witness for C5 at a concrete 502 response. -/
theorem C5_passthrough_witness :
    modifyAPIResponse (c3Routes.filterRules) ["a"] c5Resp = (c5Resp, none) :=
  C5_passthrough (c3Routes.filterRules) ["a"] c5Resp (by decide)

/-- C10: on a 200 response with `Content-Encoding: gzip` (and not already
uncompressed), `getAPIResponse` deletes the `Content-Encoding` header as soon
as the gzip reader is constructed, so the deletion persists on every later
error path (malformed JSON, status ≠ `success`); only a failure to construct
the gzip reader leaves the response — header included — untouched. -/
theorem C10_gzip_header_mutation (resp : Response)
    (h200 : resp.statusCode = 200)
    (hgz : headerGet resp.headers "Content-Encoding" = "gzip")
    (hunc : resp.uncompressed = false) :
    (resp.body.gzipNewReaderError = none →
      (getAPIResponse resp).1.headers = headerDel resp.headers "Content-Encoding" ∧
        headerGet (getAPIResponse resp).1.headers "Content-Encoding" = "") ∧
      ∀ e, resp.body.gzipNewReaderError = some e →
        getAPIResponse resp = (resp, .error (.wrap "gzip decoding error" e)) := by
  constructor
  · intro hok
    have hhead : (getAPIResponse resp).1.headers =
        headerDel resp.headers "Content-Encoding" := by
      unfold getAPIResponse
      simp only [hgz, hunc, hok, Bool.not_false, Bool.and_true, beq_self_eq_true,
        if_true]
      cases hj : resp.body.json with
      | error e => simp [hj, h200]
      | ok apir =>
        by_cases hs : apir.status = "success" <;> simp [hj, hs, h200]
    exact ⟨hhead, hhead ▸ headerGet_headerDel resp.headers "Content-Encoding"⟩
  · intro e he
    unfold getAPIResponse
    simp [hgz, hunc, he]

/-- Gzip-encoded 200 response whose decompressed content is not valid JSON. -/
def c10Resp : Response :=
  { statusCode := 200, uncompressed := false,
    headers := [("Content-Encoding", ["gzip"]), ("X-Request-Id", ["7"])],
    body := { gzipNewReaderError := none,
              json := .error (.base "unexpected EOF") } }

/-- Witness for C10: the header is gone although the decode itself failed. -/
theorem C10_gzip_header_mutation_witness :
    (getAPIResponse c10Resp).1.headers = headerDel c10Resp.headers "Content-Encoding" ∧
      headerGet (getAPIResponse c10Resp).1.headers "Content-Encoding" = "" :=
  (C10_gzip_header_mutation c10Resp rfl (by decide) rfl).1 rfl

end PromLabelProxy
